import Mathlib

/-!
# Verification of the mini_crm lead-distribution core

A shallow embedding of `app/services.py` (plus the data model of
`app/models.py`) of the mini_crm repository, together with proofs of the
behavioural properties of the distribution engine, the contact lifecycle
and the supporting services.

Modelling conventions:
* the relational store is a record of lists (`DB`); SQLAlchemy rows become
  plain structures carrying their primary keys;
* `random.choice` receives its randomness as an explicit natural-number
  index `choice`; the element picked is `l[choice % l.length]`, which for a
  non-empty list ranges over exactly the elements `random.choice` can pick
  (an empty list makes `random.choice` raise, modelled by `Option.none`);
* Python `datetime.utcnow()` is an explicit `now : Nat` parameter;
* a Python `Optional[str]` is an `Option String`; Python truthiness of such
  a value (`if name:`) is `pyTruthy`: `none` and `some ""` are falsy;
* a service that can hit a dangling foreign key (impossible in the real
  database) or an empty `random.choice` returns `Option.none` for that
  crash; `ValueError` is a dedicated constructor of the result type.
-/

/-- Row of table `operators` (`app/models.py`, class `Operator`). -/
structure Operator where
  id : Nat
  name : String
  is_active : Bool
  max_active_contacts : Nat
deriving Repr, DecidableEq

/-- Row of table `sources` (`app/models.py`, class `Source`). -/
structure Source where
  id : Nat
  name : String
  code : String
  is_active : Bool
deriving Repr, DecidableEq

/-- Row of table `operator_source_assignments`
(`app/models.py`, class `OperatorSourceAssignment`). -/
structure Assignment where
  id : Nat
  operator_id : Nat
  source_id : Nat
  weight : Nat
deriving Repr, DecidableEq

/-- Row of table `leads` (`app/models.py`, class `Lead`). -/
structure Lead where
  id : Nat
  external_id : String
  name : Option String
  phone : Option String
  email : Option String
deriving Repr, DecidableEq

/-- Row of table `contacts` (`app/models.py`, class `Contact`).
`status` is one of the strings "new", "in_progress", "closed". -/
structure Contact where
  id : Nat
  lead_id : Nat
  source_id : Nat
  operator_id : Option Nat
  status : String
  message : Option String
  assigned_at : Option Nat
  closed_at : Option Nat
deriving Repr, DecidableEq

/-- The relational store: one list per table plus primary-key counters. -/
structure DB where
  operators : List Operator
  sources : List Source
  assignments : List Assignment
  leads : List Lead
  contacts : List Contact
  next_assignment_id : Nat
  next_lead_id : Nat
  next_contact_id : Nat
deriving Repr, DecidableEq

/-- Python truthiness of an `Optional[str]`: `None` and `""` are falsy. -/
def pyTruthy : Option String → Bool
  | none => false
  | some s => s ≠ ""

/-- Primary-key lookup in `operators` (`OperatorService.get_by_id` /
the `assignment.operator` relationship). -/
def find_operator (db : DB) (operator_id : Nat) : Option Operator :=
  db.operators.find? (fun o => o.id == operator_id)

/-- `OperatorService.get_active_contacts_count`: number of the operator\x27s
contacts whose status is "new" or "in_progress". -/
def get_active_contacts_count (db : DB) (operator_id : Nat) : Nat :=
  (db.contacts.filter (fun c =>
    c.operator_id == some operator_id &&
      (c.status == "new" || c.status == "in_progress"))).length

/-- `SourceService.get_by_code`. -/
def get_source_by_code (db : DB) (code : String) : Option Source :=
  db.sources.find? (fun s => s.code == code)

/-- `ContactService.get_by_id`. -/
def get_contact_by_id (db : DB) (contact_id : Nat) : Option Contact :=
  db.contacts.find? (fun c => c.id == contact_id)

/-- The rows of `operator_source_assignments` for one source
(the query opening `DistributionService.select_operator`). -/
def source_assignments (db : DB) (source_id : Nat) : List Assignment :=
  db.assignments.filter (fun a => a.source_id == source_id)

/-- One entry of `available_operators` in
`DistributionService.select_operator`. -/
structure AvailableOp where
  operator : Operator
  weight : Nat
  current_load : Nat
deriving Repr, DecidableEq

/-- The exclusion reason recorded for an inactive operator. -/
def inactive_reason (op : Operator) : String :=
  op.name ++ ": неактивен"

/-- The exclusion reason recorded for an operator at capacity. -/
def capacity_reason (op : Operator) (load : Nat) : String :=
  op.name ++ ": достигнут лимит (" ++ toString load ++ "/" ++
    toString op.max_active_contacts ++ ")"

/-- The filtering loop of `DistributionService.select_operator`
(step 2 of the algorithm): walks the assignments of the source and
produces `(available_operators, unavailable_reasons)` in iteration order.
`none` models the crash on a dangling `assignment.operator` foreign key,
which the real database excludes. -/
def filter_assignments (db : DB) : List Assignment →
    Option (List AvailableOp × List String)
  | [] => some ([], [])
  | a :: rest =>
    match find_operator db a.operator_id with
    | none => none
    | some op =>
      match filter_assignments db rest with
      | none => none
      | some (avail, reasons) =>
        if !op.is_active then
          some (avail, inactive_reason op :: reasons)
        else
          let load := get_active_contacts_count db op.id
          if op.max_active_contacts ≤ load then
            some (avail, capacity_reason op load :: reasons)
          else
            some (⟨op, a.weight, load⟩ :: avail, reasons)

/-- `weighted_choices` of `select_operator`: each available operator
repeated `weight` times, in order. -/
def weighted_choices (avail : List AvailableOp) : List Operator :=
  (avail.map (fun x => List.replicate x.weight x.operator)).flatten

/-- `total_weight` of `select_operator`. -/
def total_weight (avail : List AvailableOp) : Nat :=
  (avail.map (fun x => x.weight)).sum

/-- The percentage printed in the selection rationale:
`weight * 100 // total_weight`, Python floor division. -/
def rationale_percent (total w : Nat) : Nat := w * 100 / total

/-- One entry of `distribution_desc` in `select_operator`. -/
def op_desc (total : Nat) (x : AvailableOp) : String :=
  x.operator.name ++ ": вес " ++ toString x.weight ++ " (" ++
    toString (rationale_percent total x.weight) ++ "%)"

/-- Rationale of step 2 of `select_operator`: no assignment rows. -/
def no_assignments_msg : String :=
  "Нет операторов, назначенных на данный источник"

/-- Rationale prefix of step 3 of `select_operator`. -/
def no_available_msg (reasons : List String) : String :=
  "Нет доступных операторов. Причины: " ++
    (if reasons.isEmpty then "Неизвестная причина"
     else String.intercalate "; " reasons)

/-- Rationale of the success branch of `select_operator`. -/
def chosen_msg (selected : Operator) (avail : List AvailableOp) : String :=
  "Выбран " ++ selected.name ++ " из [" ++
    String.intercalate ", " (avail.map (op_desc (total_weight avail))) ++ "]"

/-- `DistributionService.select_operator`. Returns
`(selected operator or none, rationale)`; the outer `Option` is the crash
on a dangling foreign key or on `random.choice` of an empty list. -/
def select_operator (db : DB) (source_id : Nat) (choice : Nat) :
    Option (Option Operator × String) :=
  let assignments := source_assignments db source_id
  if assignments.isEmpty then
    some (none, no_assignments_msg)
  else
    match filter_assignments db assignments with
    | none => none
    | some (avail, reasons) =>
      if avail.isEmpty then
        some (none, no_available_msg reasons)
      else
        let wc := weighted_choices avail
        match wc.get? (choice % wc.length) with
        | none => none
        | some selected => some (some selected, chosen_msg selected avail)

/-- `AssignmentService.create_or_update`: update the weight of the existing
`(operator, source)` row, or insert a fresh row. Returns the new store and
the resulting row. -/
def create_or_update_assignment (db : DB) (operator_id source_id weight : Nat) :
    DB × Assignment :=
  match db.assignments.find? (fun a =>
      a.operator_id == operator_id && a.source_id == source_id) with
  | some existing =>
    let updated : Assignment := { existing with weight := weight }
    ({ db with assignments := db.assignments.map (fun a =>
        if a.id == existing.id then updated else a) }, updated)
  | none =>
    let fresh : Assignment :=
      ⟨db.next_assignment_id, operator_id, source_id, weight⟩
    ({ db with assignments := db.assignments ++ [fresh],
               next_assignment_id := db.next_assignment_id + 1 }, fresh)

/-- `LeadService.get_or_create`: find the lead by `external_id`, filling
each of name/phone/email only when the incoming value is truthy and the
stored one is falsy; otherwise create a fresh lead. Returns
`(store, lead, created_new)`. -/
def get_or_create_lead (db : DB) (external_id : String)
    (name phone email : Option String) : DB × Lead × Bool :=
  match db.leads.find? (fun l => l.external_id == external_id) with
  | some lead =>
    let lead1 : Lead :=
      { lead with
        name := if pyTruthy name && !(pyTruthy lead.name) then name
                else lead.name,
        phone := if pyTruthy phone && !(pyTruthy lead.phone) then phone
                 else lead.phone,
        email := if pyTruthy email && !(pyTruthy lead.email) then email
                 else lead.email }
    ({ db with leads := db.leads.map (fun l =>
        if l.id == lead.id then lead1 else l) }, lead1, false)
  | none =>
    let fresh : Lead := ⟨db.next_lead_id, external_id, name, phone, email⟩
    ({ db with leads := db.leads ++ [fresh],
               next_lead_id := db.next_lead_id + 1 }, fresh, true)

/-- Input schema `ContactCreate` (`app/schemas.py`). -/
structure ContactCreate where
  lead_external_id : String
  source_code : String
  message : Option String
  lead_name : Option String
  lead_phone : Option String
  lead_email : Option String
deriving Repr, DecidableEq

/-- Outcome of `ContactService.create`: a raised `ValueError`, or the new
store together with the persisted contact and the rationale string. -/
inductive CreateOutcome where
  | error (msg : String)
  | ok (db : DB) (contact : Contact) (info : String)
deriving Repr, DecidableEq

/-- The `ValueError` message for an unknown source code. -/
def source_not_found_msg (code : String) : String :=
  "Источник с кодом \x27" ++ code ++ "\x27 не найден"

/-- The `ValueError` message for an inactive source. -/
def source_inactive_msg (code : String) : String :=
  "Источник \x27" ++ code ++ "\x27 неактивен"

/-- The lead-resolution half of the composite rationale. -/
def lead_info_msg (is_new : Bool) : String :=
  if is_new then "создан новый лид" else "найден существующий лид"

/-- `ContactService.create`: resolve the source by code (`ValueError` if
absent or inactive), resolve or create the lead, run the distribution
engine, persist a contact with status "new" and, when an operator was
selected, its id and the assignment timestamp. -/
def contact_create (db : DB) (data : ContactCreate) (choice now : Nat) :
    Option CreateOutcome :=
  match get_source_by_code db data.source_code with
  | none => some (.error (source_not_found_msg data.source_code))
  | some source =>
    if !source.is_active then
      some (.error (source_inactive_msg data.source_code))
    else
      let res := get_or_create_lead db data.lead_external_id
        data.lead_name data.lead_phone data.lead_email
      let db1 := res.1
      let lead := res.2.1
      let is_new_lead := res.2.2
      match select_operator db1 source.id choice with
      | none => none
      | some (operator, distribution_info) =>
        let contact : Contact :=
          { id := db1.next_contact_id,
            lead_id := lead.id,
            source_id := source.id,
            operator_id := operator.map (fun o => o.id),
            status := "new",
            message := data.message,
            assigned_at := if operator.isSome then some now else none,
            closed_at := none }
        let db2 := { db1 with contacts := db1.contacts ++ [contact],
                              next_contact_id := db1.next_contact_id + 1 }
        some (.ok db2 contact (lead_info_msg is_new_lead ++ "; " ++
          distribution_info))

/-- `ContactService.update_status`: set the status of an existing contact
to the requested value, stamping `closed_at` when the new status is
"closed". `none` models the not-found return. -/
def update_status (db : DB) (contact_id : Nat) (new_status : String)
    (now : Nat) : Option (DB × Contact) :=
  match get_contact_by_id db contact_id with
  | none => none
  | some c =>
    let c1 : Contact :=
      { c with status := new_status,
               closed_at := if new_status == "closed" then some now
                            else c.closed_at }
    some ({ db with contacts := db.contacts.map (fun x =>
        if x.id == c.id then c1 else x) }, c1)

/-- The failure message of `ContactService.reassign` for a missing contact. -/
def contact_not_found_msg : String := "Обращение не найдено"

/-- The failure message of `ContactService.reassign` for a closed contact. -/
def closed_contact_msg : String := "Нельзя переназначить закрытое обращение"

/-- `ContactService.reassign`: on a missing or closed contact return the
store unchanged with no contact and the failure message; otherwise re-run
the distribution engine for the contact\x27s source and overwrite
`operator_id` and `assigned_at` (both cleared when no operator was
selected). The outer `Option` is the dangling-foreign-key crash. -/
def contact_reassign (db : DB) (contact_id : Nat) (choice now : Nat) :
    Option (DB × Option Contact × String) :=
  match get_contact_by_id db contact_id with
  | none => some (db, none, contact_not_found_msg)
  | some c =>
    if c.status == "closed" then some (db, none, closed_contact_msg)
    else
      match select_operator db c.source_id choice with
      | none => none
      | some (operator, info) =>
        let c1 : Contact :=
          { c with operator_id := operator.map (fun o => o.id),
                   assigned_at := if operator.isSome then some now
                                  else none }
        some ({ db with contacts := db.contacts.map (fun x =>
            if x.id == c.id then c1 else x) }, some c1, info)

/-- Boolean pairwise check on a list. -/
def pairwiseB (p : α → α → Bool) : List α → Bool
  | [] => true
  | a :: rest => rest.all (p a) && pairwiseB p rest

/-- Referential integrity of `assignment.operator_id` (enforced by the
database\x27s foreign-key constraint). -/
def operators_present (db : DB) : Prop :=
  ∀ a ∈ db.assignments, (find_operator db a.operator_id).isSome = true

/-- Every stored weight is ≥ 1 (enforced by the `AssignmentCreate` schema,
`weight ∈ [1, 1000]`). -/
def weights_pos (db : DB) : Prop :=
  ∀ a ∈ db.assignments, 1 ≤ a.weight

/-- `filter_assignments` only crashes on a dangling foreign key. -/
theorem filter_assignments_isSome (db : DB) (l : List Assignment)
    (h : ∀ a ∈ l, (find_operator db a.operator_id).isSome = true) :
    ∃ avail reasons, filter_assignments db l = some (avail, reasons) := by
  induction l with
  | nil => exact ⟨[], [], rfl⟩
  | cons a rest ih =>
    obtain ⟨op, hop⟩ : ∃ op, find_operator db a.operator_id = some op := by
      have := h a (List.mem_cons_self a rest)
      cases hfo : find_operator db a.operator_id with
      | none => rw [hfo] at this; simp at this
      | some op => exact ⟨op, rfl⟩
    obtain ⟨avail, reasons, hrec⟩ :=
      ih (fun a ha => h a (List.mem_cons_of_mem _ ha))
    rw [filter_assignments, hop, hrec]
    by_cases hact : op.is_active
    · by_cases hcap :
        op.max_active_contacts ≤ get_active_contacts_count db op.id
      · exact ⟨avail, capacity_reason op (get_active_contacts_count db op.id)
          :: reasons, by simp [hact, hcap]⟩
      · exact ⟨⟨op, a.weight, get_active_contacts_count db op.id⟩ :: avail,
          reasons, by simp [hact, hcap]⟩
    · exact ⟨avail, inactive_reason op :: reasons, by simp [hact]⟩

/-- Every entry of `available_operators` passed the eligibility filter:
its operator is active, strictly under capacity at evaluation time, and
carries the weight of an assignment row of the walked list. -/
theorem mem_avail_spec (db : DB) (l : List Assignment)
    (avail : List AvailableOp) (reasons : List String)
    (hfa : filter_assignments db l = some (avail, reasons)) :
    ∀ x ∈ avail, x.operator.is_active = true ∧
      get_active_contacts_count db x.operator.id <
        x.operator.max_active_contacts ∧
      x.current_load = get_active_contacts_count db x.operator.id ∧
      ∃ a ∈ l, find_operator db a.operator_id = some x.operator ∧
        x.weight = a.weight := by
  induction l generalizing avail reasons with
  | nil =>
    rw [filter_assignments] at hfa
    cases hfa
    intro x hx
    cases hx
  | cons a rest ih =>
    rw [filter_assignments] at hfa
    cases hop : find_operator db a.operator_id with
    | none => rw [hop] at hfa; cases hfa
    | some op =>
      rw [hop] at hfa
      cases hrec : filter_assignments db rest with
      | none => rw [hrec] at hfa; cases hfa
      | some pr =>
        obtain ⟨avail0, reasons0⟩ := pr
        rw [hrec] at hfa
        by_cases hact : op.is_active
        · by_cases hcap :
            op.max_active_contacts ≤ get_active_contacts_count db op.id
          · simp only [hact, hcap, if_true, if_pos, Bool.not_true,
              Bool.false_eq_true, if_false, Option.some.injEq] at hfa
            cases hfa
            intro x hx
            obtain ⟨h1, h2, h3, a0, ha0, h4⟩ := ih avail reasons0 hrec x hx
            exact ⟨h1, h2, h3, a0, List.mem_cons_of_mem _ ha0, h4⟩
          · simp only [hact, hcap, Bool.not_true, Bool.false_eq_true,
              if_false, Option.some.injEq] at hfa
            cases hfa
            intro x hx
            rcases List.mem_cons.mp hx with hx | hx
            · subst hx
              refine ⟨hact, Nat.lt_of_not_le hcap, rfl,
                a, List.mem_cons_self a rest, hop, rfl⟩
            · obtain ⟨h1, h2, h3, a0, ha0, h4⟩ := ih avail0 reasons hrec x hx
              exact ⟨h1, h2, h3, a0, List.mem_cons_of_mem _ ha0, h4⟩
        · simp only [hact, Bool.not_false, if_true, Option.some.injEq] at hfa
          cases hfa
          intro x hx
          obtain ⟨h1, h2, h3, a0, ha0, h4⟩ := ih avail reasons0 hrec x hx
          exact ⟨h1, h2, h3, a0, List.mem_cons_of_mem _ ha0, h4⟩

/-- Every recorded exclusion reason names an operator of an assignment row
of the walked list and states why it was excluded: inactive, or at
capacity with the live load and the capacity. -/
theorem mem_reasons_spec (db : DB) (l : List Assignment)
    (avail : List AvailableOp) (reasons : List String)
    (hfa : filter_assignments db l = some (avail, reasons)) :
    ∀ r ∈ reasons, ∃ a ∈ l, ∃ op,
      find_operator db a.operator_id = some op ∧
      ((op.is_active = false ∧ r = inactive_reason op) ∨
       (op.max_active_contacts ≤ get_active_contacts_count db op.id ∧
        r = capacity_reason op (get_active_contacts_count db op.id))) := by
  induction l generalizing avail reasons with
  | nil =>
    rw [filter_assignments] at hfa
    cases hfa
    intro r hr
    cases hr
  | cons a rest ih =>
    rw [filter_assignments] at hfa
    cases hop : find_operator db a.operator_id with
    | none => rw [hop] at hfa; cases hfa
    | some op =>
      rw [hop] at hfa
      cases hrec : filter_assignments db rest with
      | none => rw [hrec] at hfa; cases hfa
      | some pr =>
        obtain ⟨avail0, reasons0⟩ := pr
        rw [hrec] at hfa
        by_cases hact : op.is_active
        · by_cases hcap :
            op.max_active_contacts ≤ get_active_contacts_count db op.id
          · simp only [hact, hcap, if_true, if_pos, Bool.not_true,
              Bool.false_eq_true, if_false, Option.some.injEq] at hfa
            cases hfa
            intro r hr
            rcases List.mem_cons.mp hr with hr | hr
            · exact ⟨a, List.mem_cons_self a rest, op, hop,
                Or.inr ⟨hcap, hr⟩⟩
            · obtain ⟨a0, ha0, op0, h1, h2⟩ := ih avail reasons0 hrec r hr
              exact ⟨a0, List.mem_cons_of_mem _ ha0, op0, h1, h2⟩
          · simp only [hact, hcap, Bool.not_true, Bool.false_eq_true,
              if_false, Option.some.injEq] at hfa
            cases hfa
            intro r hr
            obtain ⟨a0, ha0, op0, h1, h2⟩ := ih avail0 reasons hrec r hr
            exact ⟨a0, List.mem_cons_of_mem _ ha0, op0, h1, h2⟩
        · simp only [hact, Bool.not_false, if_true, Option.some.injEq] at hfa
          cases hfa
          intro r hr
          rcases List.mem_cons.mp hr with hr | hr
          · refine ⟨a, List.mem_cons_self a rest, op, hop, Or.inl ⟨?_, hr⟩⟩
            simpa using hact
          · obtain ⟨a0, ha0, op0, h1, h2⟩ := ih avail reasons0 hrec r hr
            exact ⟨a0, List.mem_cons_of_mem _ ha0, op0, h1, h2⟩

/-- When no operator survives the filter, every walked assignment
contributed exactly one exclusion reason. -/
theorem avail_nil_reasons_length (db : DB) (l : List Assignment)
    (reasons : List String)
    (hfa : filter_assignments db l = some ([], reasons)) :
    reasons.length = l.length := by
  induction l generalizing reasons with
  | nil =>
    rw [filter_assignments] at hfa
    cases hfa
    rfl
  | cons a rest ih =>
    rw [filter_assignments] at hfa
    cases hop : find_operator db a.operator_id with
    | none => rw [hop] at hfa; cases hfa
    | some op =>
      rw [hop] at hfa
      cases hrec : filter_assignments db rest with
      | none => rw [hrec] at hfa; cases hfa
      | some pr =>
        obtain ⟨avail0, reasons0⟩ := pr
        rw [hrec] at hfa
        by_cases hact : op.is_active
        · by_cases hcap :
            op.max_active_contacts ≤ get_active_contacts_count db op.id
          · simp only [hact, hcap, if_true, if_pos, Bool.not_true,
              Bool.false_eq_true, if_false, Option.some.injEq] at hfa
            obtain ⟨h1, h2⟩ := Prod.mk.injEq .. ▸ hfa
            subst h1
            subst h2
            simp [ih reasons0 hrec]
          · simp only [hact, hcap, Bool.not_true, Bool.false_eq_true,
              if_false, Option.some.injEq] at hfa
            obtain ⟨h1, h2⟩ := Prod.mk.injEq .. ▸ hfa
            cases h1
        · simp only [hact, Bool.not_false, if_true, Option.some.injEq] at hfa
          obtain ⟨h1, h2⟩ := Prod.mk.injEq .. ▸ hfa
          subst h1
          subst h2
          simp [ih reasons0 hrec]

/-- Weights recorded in `available_operators` are the stored assignment
weights, hence positive when the store is schema-valid. -/
theorem avail_weights_pos (db : DB) (l : List Assignment)
    (avail : List AvailableOp) (reasons : List String)
    (hw : ∀ a ∈ l, 1 ≤ a.weight)
    (hfa : filter_assignments db l = some (avail, reasons)) :
    ∀ x ∈ avail, 1 ≤ x.weight := by
  intro x hx
  obtain ⟨-, -, -, a, ha, -, hwx⟩ :=
    mem_avail_spec db l avail reasons hfa x hx
  exact hwx ▸ hw a ha

/-- The choice list built by `weighted_choices` has length `total_weight`
(Σ weight over the available operators). -/
theorem length_weighted_choices (avail : List AvailableOp) :
    (weighted_choices avail).length = total_weight avail := by
  simp [weighted_choices, total_weight, List.length_flatten, List.map_map,
    Function.comp_def]

/-- Every element of the choice list is the operator of an available
entry. -/
theorem mem_weighted_choices (avail : List AvailableOp) (op : Operator)
    (h : op ∈ weighted_choices avail) :
    ∃ x ∈ avail, op = x.operator := by
  rw [weighted_choices, List.mem_flatten] at h
  obtain ⟨l, hl, hop⟩ := h
  rw [List.mem_map] at hl
  obtain ⟨x, hx, rfl⟩ := hl
  exact ⟨x, hx, (List.eq_of_mem_replicate hop)⟩

/-- The choice list is non-empty as soon as one available operator has a
positive weight. -/
theorem weighted_choices_ne_nil (x : AvailableOp) (avail : List AvailableOp)
    (hx : x ∈ avail) (hw : 1 ≤ x.weight) :
    weighted_choices avail ≠ [] := by
  intro hnil
  have : x.operator ∈ weighted_choices avail := by
    rw [weighted_choices, List.mem_flatten]
    exact ⟨List.replicate x.weight x.operator,
      List.mem_map.mpr ⟨x, hx, rfl⟩,
      List.mem_replicate.mpr ⟨Nat.one_le_iff_ne_zero.mp hw, rfl⟩⟩
  rw [hnil] at this
  cases this

/-- Branch 2 of `select_operator`: no assignment rows. -/
theorem select_operator_no_assignments (db : DB) (sid choice : Nat)
    (h : source_assignments db sid = []) :
    select_operator db sid choice = some (none, no_assignments_msg) := by
  rw [select_operator]
  simp [h]

/-- Branch 3 of `select_operator`: assignments exist, none eligible. -/
theorem select_operator_none_eligible (db : DB) (sid choice : Nat)
    (reasons : List String)
    (hne : source_assignments db sid ≠ [])
    (hfa : filter_assignments db (source_assignments db sid) =
      some ([], reasons)) :
    select_operator db sid choice = some (none, no_available_msg reasons) := by
  rw [select_operator]
  simp only [List.isEmpty_iff, hne, if_false, hfa, List.isEmpty_nil, if_true]

/-- Branch 4 of `select_operator`: at least one eligible operator with a
positive weight; the weighted draw returns an element of the choice
list. -/
theorem select_operator_success (db : DB) (sid choice : Nat)
    (avail : List AvailableOp) (reasons : List String)
    (hne : source_assignments db sid ≠ [])
    (hfa : filter_assignments db (source_assignments db sid) =
      some (avail, reasons))
    (havail : avail ≠ [])
    (hw : ∀ x ∈ avail, 1 ≤ x.weight) :
    ∃ selected ∈ weighted_choices avail,
      select_operator db sid choice =
        some (some selected, chosen_msg selected avail) := by
  obtain ⟨x, hx⟩ := List.exists_mem_of_ne_nil avail havail
  have hwcne : weighted_choices avail ≠ [] :=
    weighted_choices_ne_nil x avail hx (hw x hx)
  have hlen : 0 < (weighted_choices avail).length :=
    List.length_pos.mpr hwcne
  have hmod : choice % (weighted_choices avail).length <
      (weighted_choices avail).length := Nat.mod_lt _ hlen
  cases hget : (weighted_choices avail).get?
      (choice % (weighted_choices avail).length) with
  | none =>
    exact absurd (List.get?_eq_none.mp hget) (Nat.not_le_of_lt hmod)
  | some selected =>
    refine ⟨selected, List.get?_mem hget, ?_⟩
    rw [select_operator]
    simp only [List.isEmpty_iff, hne, if_false, hfa, havail, hget]

/-- C1. `DistributionService.select_operator` follows exactly three
branches. With referential integrity (`operators_present`) and
schema-valid weights (`weights_pos`) it never crashes, and:
(i) with no assignments on the source it returns `none` with the
"no operators assigned" rationale; (ii) with assignments but no eligible
operator it returns `none` with a rationale joining one exclusion reason
per excluded operator, each naming the operator and whether it was
inactive or at capacity with its load/capacity numbers; (iii) otherwise it
returns an operator drawn from the weighted choice list, and any operator
it returns is active and strictly under capacity at evaluation time. -/
theorem select_operator_three_branches (db : DB) (sid choice : Nat)
    (hpres : operators_present db) (hwpos : weights_pos db) :
    ∃ res, select_operator db sid choice = some res ∧
      (source_assignments db sid = [] → res = (none, no_assignments_msg)) ∧
      (∀ reasons, source_assignments db sid ≠ [] →
        filter_assignments db (source_assignments db sid) =
          some ([], reasons) →
        res.1 = none ∧ res.2 = no_available_msg reasons ∧ reasons ≠ [] ∧
        reasons.length = (source_assignments db sid).length ∧
        ∀ r ∈ reasons, ∃ a ∈ source_assignments db sid, ∃ op,
          find_operator db a.operator_id = some op ∧
          ((op.is_active = false ∧ r = inactive_reason op) ∨
           (op.max_active_contacts ≤ get_active_contacts_count db op.id ∧
            r = capacity_reason op (get_active_contacts_count db op.id)))) ∧
      (∀ avail reasons, source_assignments db sid ≠ [] →
        filter_assignments db (source_assignments db sid) =
          some (avail, reasons) → avail ≠ [] →
        ∃ selected ∈ weighted_choices avail,
          res = (some selected, chosen_msg selected avail)) ∧
      (∀ op s, res = (some op, s) → op.is_active = true ∧
        get_active_contacts_count db op.id < op.max_active_contacts) := by
  have hsub : ∀ a ∈ source_assignments db sid, a ∈ db.assignments :=
    fun a ha => (List.mem_filter.mp ha).1
  by_cases hnil : source_assignments db sid = []
  · refine ⟨(none, no_assignments_msg),
      select_operator_no_assignments db sid choice hnil, fun _ => rfl,
      fun reasons hne _ => absurd hnil hne,
      fun avail reasons hne _ _ => absurd hnil hne,
      fun op s hres => by cases hres⟩
  · obtain ⟨avail, reasons, hfa⟩ :=
      filter_assignments_isSome db (source_assignments db sid)
        (fun a ha => hpres a (hsub a ha))
    by_cases havail : avail = []
    · subst havail
      refine ⟨(none, no_available_msg reasons),
        select_operator_none_eligible db sid choice reasons hnil hfa,
        fun h => absurd h hnil, ?_, ?_, fun op s hres => by cases hres⟩
      · intro reasons1 _ hfa1
        rw [hfa] at hfa1
        obtain ⟨-, hr⟩ := Prod.mk.injEq .. ▸ Option.some.injEq .. ▸ hfa1
        subst hr
        have hlen := avail_nil_reasons_length db _ reasons hfa
        refine ⟨rfl, rfl, ?_, hlen, mem_reasons_spec db _ _ reasons hfa⟩
        intro hrnil
        rw [hrnil] at hlen
        exact hnil (List.length_eq_zero.mp hlen.symm)
      · intro avail1 reasons1 _ hfa1 havail1
        rw [hfa] at hfa1
        obtain ⟨ha, -⟩ := Prod.mk.injEq .. ▸ Option.some.injEq .. ▸ hfa1
        exact absurd ha.symm havail1
    · have hw1 : ∀ x ∈ avail, 1 ≤ x.weight :=
        avail_weights_pos db _ avail reasons
          (fun a ha => hwpos a (hsub a ha)) hfa
      obtain ⟨selected, hsel, hres⟩ :=
        select_operator_success db sid choice avail reasons hnil hfa
          havail hw1
      refine ⟨(some selected, chosen_msg selected avail), hres,
        fun h => absurd h hnil, ?_, ?_, ?_⟩
      · intro reasons1 _ hfa1
        rw [hfa] at hfa1
        obtain ⟨ha, -⟩ := Prod.mk.injEq .. ▸ Option.some.injEq .. ▸ hfa1
        exact absurd ha havail
      · intro avail1 reasons1 _ hfa1 _
        rw [hfa] at hfa1
        obtain ⟨ha, -⟩ := Prod.mk.injEq .. ▸ Option.some.injEq .. ▸ hfa1
        subst ha
        exact ⟨selected, hsel, rfl⟩
      · intro op s hres1
        obtain ⟨ho, -⟩ := Prod.mk.injEq .. ▸ hres1
        obtain ⟨x, hx, hxop⟩ :=
          mem_weighted_choices avail selected hsel
        obtain ⟨hact, hcap, -, -⟩ := mem_avail_spec db _ avail reasons hfa x hx
        have : op = selected := by
          cases ho
          rfl
        rw [this, hxop]
        exact ⟨hact, hcap⟩

/-- A small concrete store: one active operator under capacity, one active
source, one assignment of weight 3, no contacts. -/
def dbOneOp : DB :=
  ⟨[⟨1, "A", true, 2⟩], [⟨1, "TG", "tg", true⟩], [⟨1, 1, 1, 3⟩],
    [], [], 2, 1, 1⟩

/-- Witness for `select_operator_three_branches` at a concrete store. -/
theorem select_operator_three_branches_witness :
    operators_present dbOneOp ∧ weights_pos dbOneOp ∧
    ∃ res, select_operator dbOneOp 1 0 = some res ∧
      (source_assignments dbOneOp 1 = [] →
        res = (none, no_assignments_msg)) ∧
      (∀ reasons, source_assignments dbOneOp 1 ≠ [] →
        filter_assignments dbOneOp (source_assignments dbOneOp 1) =
          some ([], reasons) →
        res.1 = none ∧ res.2 = no_available_msg reasons ∧ reasons ≠ [] ∧
        reasons.length = (source_assignments dbOneOp 1).length ∧
        ∀ r ∈ reasons, ∃ a ∈ source_assignments dbOneOp 1, ∃ op,
          find_operator dbOneOp a.operator_id = some op ∧
          ((op.is_active = false ∧ r = inactive_reason op) ∨
           (op.max_active_contacts ≤
              get_active_contacts_count dbOneOp op.id ∧
            r = capacity_reason op
              (get_active_contacts_count dbOneOp op.id)))) ∧
      (∀ avail reasons, source_assignments dbOneOp 1 ≠ [] →
        filter_assignments dbOneOp (source_assignments dbOneOp 1) =
          some (avail, reasons) → avail ≠ [] →
        ∃ selected ∈ weighted_choices avail,
          res = (some selected, chosen_msg selected avail)) ∧
      (∀ op s, res = (some op, s) → op.is_active = true ∧
        get_active_contacts_count dbOneOp op.id <
          op.max_active_contacts) :=
  ⟨by unfold operators_present; decide, by unfold weights_pos; decide,
    select_operator_three_branches dbOneOp 1 0
      (by unfold operators_present; decide)
      (by unfold weights_pos; decide)⟩

/-- C10. The fallback "unknown reason" rationale is unreachable: when the
source has at least one assignment and the filter leaves no available
operator, every assignment contributed exactly one exclusion reason, so
the reason list is non-empty and the returned rationale is the join of the
per-operator reasons (each naming the excluded operator), never the
fallback text. -/
theorem no_available_fallback_unreachable (db : DB) (sid choice : Nat)
    (reasons : List String)
    (hne : source_assignments db sid ≠ [])
    (hfa : filter_assignments db (source_assignments db sid) =
      some ([], reasons)) :
    reasons.length = (source_assignments db sid).length ∧
    reasons ≠ [] ∧
    select_operator db sid choice = some (none,
      "Нет доступных операторов. Причины: " ++
        String.intercalate "; " reasons) ∧
    ∀ r ∈ reasons, ∃ a ∈ source_assignments db sid, ∃ op,
      find_operator db a.operator_id = some op ∧
      ((op.is_active = false ∧ r = inactive_reason op) ∨
       (op.max_active_contacts ≤ get_active_contacts_count db op.id ∧
        r = capacity_reason op (get_active_contacts_count db op.id))) := by
  have hlen := avail_nil_reasons_length db _ reasons hfa
  have hrne : reasons ≠ [] := by
    intro hrnil
    rw [hrnil] at hlen
    exact hne (List.length_eq_zero.mp hlen.symm)
  refine ⟨hlen, hrne, ?_, mem_reasons_spec db _ _ reasons hfa⟩
  rw [select_operator_none_eligible db sid choice reasons hne hfa,
    no_available_msg]
  simp [List.isEmpty_iff, hrne]

/-- A concrete store whose single assigned operator is inactive. -/
def dbInactive : DB :=
  ⟨[⟨1, "B", false, 2⟩], [⟨1, "TG", "tg", true⟩], [⟨1, 1, 1, 3⟩],
    [], [], 2, 1, 1⟩

/-- Witness for `no_available_fallback_unreachable`. -/
theorem no_available_fallback_unreachable_witness :
    source_assignments dbInactive 1 ≠ [] ∧
    filter_assignments dbInactive (source_assignments dbInactive 1) =
      some ([], ["B: неактивен"]) ∧
    (["B: неактивен"].length = (source_assignments dbInactive 1).length ∧
     (["B: неактивен"] : List String) ≠ [] ∧
     select_operator dbInactive 1 0 = some (none,
       "Нет доступных операторов. Причины: " ++
         String.intercalate "; " ["B: неактивен"]) ∧
     ∀ r ∈ ["B: неактивен"], ∃ a ∈ source_assignments dbInactive 1, ∃ op,
       find_operator dbInactive a.operator_id = some op ∧
       ((op.is_active = false ∧ r = inactive_reason op) ∨
        (op.max_active_contacts ≤
           get_active_contacts_count dbInactive op.id ∧
         r = capacity_reason op
           (get_active_contacts_count dbInactive op.id)))) :=
  ⟨by decide, by decide,
    no_available_fallback_unreachable dbInactive 1 0 ["B: неактивен"]
      (by decide) (by decide)⟩

/-- Floor division distributes sub-additively over a list sum. -/
theorem sum_div_le_div_sum (l : List Nat) (t : Nat) (ht : 0 < t) :
    (l.map (fun a => a / t)).sum ≤ l.sum / t := by
  induction l with
  | nil => simp
  | cons a rest ih =>
    simp only [List.map_cons, List.sum_cons]
    calc a / t + (rest.map (fun a => a / t)).sum
        ≤ a / t + rest.sum / t := Nat.add_le_add_left ih _
      _ ≤ (a + rest.sum) / t := by
          rw [Nat.le_div_iff_mul_le ht, Nat.add_mul]
          exact Nat.add_le_add (Nat.div_mul_le_self a t)
            (Nat.div_mul_le_self rest.sum t)

/-- C8. The percentage reported for each available operator in the
selection rationale is `weight * 100 // total_weight` (floor division),
and the percentages of all available operators sum to at most 100. -/
theorem rationale_percentages_sum_le_100 (avail : List AvailableOp)
    (hne : avail ≠ []) (hw : ∀ x ∈ avail, 1 ≤ x.weight) :
    (∀ x ∈ avail, op_desc (total_weight avail) x =
      x.operator.name ++ ": вес " ++ toString x.weight ++ " (" ++
        toString (x.weight * 100 / total_weight avail) ++ "%)") ∧
    (avail.map (fun x =>
      rationale_percent (total_weight avail) x.weight)).sum ≤ 100 := by
  constructor
  · intro x _
    rfl
  · have ht : 0 < total_weight avail := by
      obtain ⟨x, hx⟩ := List.exists_mem_of_ne_nil avail hne
      calc 0 < x.weight := hw x hx
        _ ≤ total_weight avail :=
          List.single_le_sum (fun _ _ => Nat.zero_le _) _
            (List.mem_map.mpr ⟨x, hx, rfl⟩)
    have h1 : (avail.map (fun x =>
        rationale_percent (total_weight avail) x.weight)).sum =
        ((avail.map (fun x => x.weight * 100)).map
          (fun a => a / total_weight avail)).sum := by
      rw [List.map_map]
      rfl
    rw [h1]
    calc ((avail.map (fun x => x.weight * 100)).map
          (fun a => a / total_weight avail)).sum
        ≤ (avail.map (fun x => x.weight * 100)).sum / total_weight avail :=
          sum_div_le_div_sum _ _ ht
      _ = total_weight avail * 100 / total_weight avail := by
          rw [List.sum_map_mul_right]
          rfl
      _ = 100 := Nat.mul_div_cancel_left 100 ht

/-- Witness for `rationale_percentages_sum_le_100`: weights 10 and 30 give
25% and 75%. -/
theorem rationale_percentages_sum_le_100_witness :
    ((([⟨⟨1, "A", true, 2⟩, 10, 0⟩, ⟨⟨2, "B", true, 2⟩, 30, 0⟩] :
        List AvailableOp)) ≠ [] ∧
      ∀ x ∈ ([⟨⟨1, "A", true, 2⟩, 10, 0⟩, ⟨⟨2, "B", true, 2⟩, 30, 0⟩] :
        List AvailableOp), 1 ≤ x.weight) ∧
    (∀ x ∈ ([⟨⟨1, "A", true, 2⟩, 10, 0⟩, ⟨⟨2, "B", true, 2⟩, 30, 0⟩] :
        List AvailableOp),
      op_desc (total_weight
        [⟨⟨1, "A", true, 2⟩, 10, 0⟩, ⟨⟨2, "B", true, 2⟩, 30, 0⟩]) x =
      x.operator.name ++ ": вес " ++ toString x.weight ++ " (" ++
        toString (x.weight * 100 / total_weight
          [⟨⟨1, "A", true, 2⟩, 10, 0⟩, ⟨⟨2, "B", true, 2⟩, 30, 0⟩]) ++
        "%)") ∧
    (([⟨⟨1, "A", true, 2⟩, 10, 0⟩, ⟨⟨2, "B", true, 2⟩, 30, 0⟩] :
        List AvailableOp).map (fun x =>
      rationale_percent (total_weight
        [⟨⟨1, "A", true, 2⟩, 10, 0⟩, ⟨⟨2, "B", true, 2⟩, 30, 0⟩])
        x.weight)).sum ≤ 100 :=
  ⟨⟨by decide, by decide⟩,
    rationale_percentages_sum_le_100 _ (by decide) (by decide)⟩

/-- Implementation-side distribution: `random.choice` draws uniformly from
`weighted_choices`, so the probability of returning `op` is its
multiplicity in the list over the list length. -/
def uniform_choice_prob (avail : List AvailableOp) (op : Operator) : ℚ :=
  ((weighted_choices avail).count op : ℚ) /
    ((weighted_choices avail).length : ℚ)

/-- Modelled from the spec: the Weighted Selector contract,
`P(i) = weight_i / Σ weight_j` over the eligible set. -/
def spec_weighted_prob (avail : List AvailableOp) (x : AvailableOp) : ℚ :=
  (x.weight : ℚ) / (total_weight avail : ℚ)

/-- In the choice list each available operator occurs exactly its weight
many times, provided the available operators are pairwise distinct (which
the unique `(operator, source)` constraint guarantees per source). -/
theorem count_weighted_choices (avail : List AvailableOp)
    (hdist : pairwiseB (fun x y => x.operator != y.operator) avail = true) :
    ∀ x ∈ avail, (weighted_choices avail).count x.operator = x.weight := by
  induction avail with
  | nil => intro x hx; cases hx
  | cons y rest ih =>
    simp only [pairwiseB, Bool.and_eq_true, List.all_eq_true] at hdist
    obtain ⟨hall, hrest⟩ := hdist
    have hsplit : weighted_choices (y :: rest) =
        List.replicate y.weight y.operator ++ weighted_choices rest := by
      simp [weighted_choices]
    intro x hx
    rcases List.mem_cons.mp hx with hx | hx
    · subst hx
      rw [hsplit, List.count_append, List.count_replicate_self,
        List.count_eq_zero.mpr, Nat.add_zero]
      intro hmem
      obtain ⟨z, hz, heq⟩ := mem_weighted_choices rest x.operator hmem
      exact bne_iff_ne.mp (hall z hz) heq
    · rw [hsplit, List.count_append, List.count_replicate,
        if_neg, Nat.zero_add, ih hrest x hx]
      intro heq
      exact bne_iff_ne.mp (hall x hx) (beq_iff_eq.mp heq)

/-- C2. The implementation\x27s selection — each eligible operator repeated
`weight` times in a list of total length `Σ weight_j`, one element drawn
uniformly — refines the specified discrete weighted draw: the probability
of each eligible operator equals `weight_i / Σ weight_j`, and operators of
equal weight receive equal probability. -/
theorem weighted_selection_refines_contract (avail : List AvailableOp)
    (hne : avail ≠ []) (hw : ∀ x ∈ avail, 1 ≤ x.weight)
    (hdist : pairwiseB (fun x y => x.operator != y.operator) avail = true) :
    (weighted_choices avail).length = total_weight avail ∧
    (∀ x ∈ avail, (weighted_choices avail).count x.operator = x.weight) ∧
    (∀ x ∈ avail,
      uniform_choice_prob avail x.operator = spec_weighted_prob avail x) ∧
    (∀ x ∈ avail, ∀ y ∈ avail, x.weight = y.weight →
      uniform_choice_prob avail x.operator =
        uniform_choice_prob avail y.operator) := by
  have hcnt := count_weighted_choices avail hdist
  have hprob : ∀ x ∈ avail,
      uniform_choice_prob avail x.operator = spec_weighted_prob avail x := by
    intro x hx
    rw [uniform_choice_prob, spec_weighted_prob, hcnt x hx,
      length_weighted_choices]
  refine ⟨length_weighted_choices avail, hcnt, hprob, ?_⟩
  intro x hx y hy hwe
  rw [hprob x hx, hprob y hy, spec_weighted_prob, spec_weighted_prob, hwe]

/-- Two available operators of weight 10 and 30. -/
def availPair : List AvailableOp :=
  [⟨⟨1, "A", true, 2⟩, 10, 0⟩, ⟨⟨2, "B", true, 2⟩, 30, 0⟩]

/-- Witness for `weighted_selection_refines_contract`. -/
theorem weighted_selection_refines_contract_witness :
    (availPair ≠ [] ∧ (∀ x ∈ availPair, 1 ≤ x.weight) ∧
     pairwiseB (fun x y => x.operator != y.operator) availPair = true) ∧
    ((weighted_choices availPair).length = total_weight availPair ∧
     (∀ x ∈ availPair,
       (weighted_choices availPair).count x.operator = x.weight) ∧
     (∀ x ∈ availPair, uniform_choice_prob availPair x.operator =
       spec_weighted_prob availPair x) ∧
     (∀ x ∈ availPair, ∀ y ∈ availPair, x.weight = y.weight →
       uniform_choice_prob availPair x.operator =
         uniform_choice_prob availPair y.operator)) :=
  ⟨⟨by decide, by decide, by decide⟩,
    weighted_selection_refines_contract availPair (by decide) (by decide)
      (by decide)⟩

/-- The assignment rows of one `(operator, source)` pair. -/
def pair_rows (db : DB) (oid sid : Nat) : List Assignment :=
  db.assignments.filter (fun a => a.operator_id == oid && a.source_id == sid)

/-- Primary keys of `operator_source_assignments` are pairwise distinct. -/
def assignment_ids_unique (db : DB) : Prop :=
  pairwiseB (fun a b => a.id != b.id) db.assignments = true

/-- The primary-key counter is ahead of every stored assignment id. -/
def assignment_id_fresh (db : DB) : Prop :=
  ∀ a ∈ db.assignments, a.id < db.next_assignment_id

/-- A member of a list of length at most one is the whole list. -/
theorem eq_singleton_of_mem_of_length_le_one {α : Type} {l : List α} {a : α}
    (ha : a ∈ l) (hlen : l.length ≤ 1) : l = [a] := by
  match l, ha with
  | [x], ha =>
    cases List.mem_singleton.mp ha
    rfl
  | x :: y :: rest, _ => simp at hlen

/-- `pairwiseB` distinct ids make the id a key of the list. -/
theorem pairwiseB_id_key (l : List Assignment)
    (h : pairwiseB (fun a b => a.id != b.id) l = true) :
    ∀ a ∈ l, ∀ b ∈ l, a.id = b.id → a = b := by
  induction l with
  | nil => intro a ha; cases ha
  | cons y rest ih =>
    simp only [pairwiseB, Bool.and_eq_true, List.all_eq_true] at h
    obtain ⟨hall, hrest⟩ := h
    intro a ha b hb heq
    rcases List.mem_cons.mp ha with ha1 | ha1
    · rcases List.mem_cons.mp hb with hb1 | hb1
      · rw [ha1, hb1]
      · subst ha1
        exact absurd heq (bne_iff_ne.mp (hall b hb1))
    · rcases List.mem_cons.mp hb with hb1 | hb1
      · subst hb1
        exact absurd heq.symm (bne_iff_ne.mp (hall a ha1))
      · exact ih hrest a ha1 b hb1 heq

/-- Filtering commutes with a map that preserves the filter predicate on
the list members. -/
theorem filter_map_comm {α : Type} (l : List α) (f : α → α) (p : α → Bool)
    (h : ∀ a ∈ l, p (f a) = p a) :
    (l.map f).filter p = (l.filter p).map f := by
  induction l with
  | nil => rfl
  | cons a rest ih =>
    have hrest := ih (fun b hb => h b (List.mem_cons_of_mem _ hb))
    by_cases hp : p a = true
    · simp [List.filter_cons, hp, h a (List.mem_cons_self a rest), hrest]
    · simp only [Bool.not_eq_true] at hp
      simp [List.filter_cons, hp, h a (List.mem_cons_self a rest), hrest]

/-- Appending one element preserves `pairwiseB` when it relates to every
old element. -/
theorem pairwiseB_append_singleton {α : Type} (p : α → α → Bool)
    (l : List α) (x : α) (hl : pairwiseB p l = true)
    (hx : ∀ a ∈ l, p a x = true) :
    pairwiseB p (l ++ [x]) = true := by
  induction l with
  | nil => simp [pairwiseB]
  | cons a rest ih =>
    simp only [pairwiseB, Bool.and_eq_true, List.all_eq_true] at hl
    obtain ⟨hall, hrest⟩ := hl
    have htail := ih hrest (fun b hb => hx b (List.mem_cons_of_mem _ hb))
    have hcons : (a :: rest) ++ [x] = a :: (rest ++ [x]) := rfl
    rw [hcons]
    simp only [pairwiseB, Bool.and_eq_true, List.all_eq_true]
    refine ⟨?_, htail⟩
    intro b hb
    rcases List.mem_append.mp hb with hb | hb
    · exact hall b hb
    · cases List.mem_singleton.mp hb
      exact hx a (List.mem_cons_self a rest)

/-- An id-preserving map keeps the distinct-id property. -/
theorem pairwiseB_id_map (l : List Assignment) (f : Assignment → Assignment)
    (hf : ∀ a, (f a).id = a.id) :
    pairwiseB (fun a b => a.id != b.id) (l.map f) =
      pairwiseB (fun a b => a.id != b.id) l := by
  induction l with
  | nil => rfl
  | cons a rest ih =>
    simp [pairwiseB, List.all_map, Function.comp_def, hf, ih]

/-- One call to `AssignmentService.create_or_update` leaves exactly one
row for the pair, carrying the requested weight, and preserves the
primary-key invariants. -/
theorem create_or_update_assignment_spec (db : DB) (oid sid w : Nat)
    (hids : assignment_ids_unique db)
    (hfresh : assignment_id_fresh db)
    (hpair : (pair_rows db oid sid).length ≤ 1) :
    (∃ a, pair_rows (create_or_update_assignment db oid sid w).1 oid sid =
        [a] ∧ a.operator_id = oid ∧ a.source_id = sid ∧ a.weight = w) ∧
    assignment_ids_unique (create_or_update_assignment db oid sid w).1 ∧
    assignment_id_fresh (create_or_update_assignment db oid sid w).1 := by
  cases hfind : db.assignments.find? (fun a =>
      a.operator_id == oid && a.source_id == sid) with
  | none =>
    have hdb1 : (create_or_update_assignment db oid sid w).1 =
        { db with
          assignments :=
            db.assignments ++ [⟨db.next_assignment_id, oid, sid, w⟩],
          next_assignment_id := db.next_assignment_id + 1 } := by
      rw [create_or_update_assignment, hfind]
    have hnil : db.assignments.filter (fun a =>
        a.operator_id == oid && a.source_id == sid) = [] := by
      rw [List.filter_eq_nil_iff]
      intro a ha
      have := List.find?_eq_none.mp hfind a ha
      simpa using this
    refine ⟨⟨⟨db.next_assignment_id, oid, sid, w⟩, ?_, rfl, rfl, rfl⟩,
      ?_, ?_⟩
    · rw [hdb1, pair_rows]
      simp only [List.filter_append, hnil, List.nil_append]
      simp
    · rw [assignment_ids_unique, hdb1]
      refine pairwiseB_append_singleton _ _ _ hids ?_
      intro a ha
      exact bne_iff_ne.mpr (Nat.ne_of_lt (hfresh a ha))
    · rw [assignment_id_fresh, hdb1]
      intro a ha
      rcases List.mem_append.mp ha with ha | ha
      · exact Nat.lt_succ_of_lt (hfresh a ha)
      · cases List.mem_singleton.mp ha
        exact Nat.lt_succ_self _
  | some existing =>
    have hmem := List.mem_of_find?_eq_some hfind
    have hpred := List.find?_some hfind
    obtain ⟨hoid, hsid⟩ : existing.operator_id = oid ∧
        existing.source_id = sid := by
      have h0 := hpred
      simp only [Bool.and_eq_true, beq_iff_eq] at h0
      exact h0
    have hdb1 : (create_or_update_assignment db oid sid w).1 =
        { db with assignments := db.assignments.map (fun a =>
            if a.id == existing.id then { existing with weight := w }
            else a) } := by
      rw [create_or_update_assignment, hfind]
    have hfid : ∀ a : Assignment,
        ((if a.id == existing.id then { existing with weight := w }
          else a) : Assignment).id = a.id := by
      intro a
      by_cases h : a.id == existing.id
      · simp only [h, if_true]
        exact (beq_iff_eq.mp h).symm
      · simp [h]
    have hsingle : pair_rows db oid sid = [existing] :=
      eq_singleton_of_mem_of_length_le_one
        (List.mem_filter.mpr ⟨hmem, hpred⟩) hpair
    have hcomm : pair_rows (create_or_update_assignment db oid sid w).1
        oid sid = (pair_rows db oid sid).map (fun a =>
          if a.id == existing.id then { existing with weight := w }
          else a) := by
      rw [hdb1, pair_rows, pair_rows]
      refine filter_map_comm _ _ _ ?_
      intro a ha
      by_cases h : a.id == existing.id
      · have : a = existing :=
          pairwiseB_id_key db.assignments hids a ha existing hmem
            (beq_iff_eq.mp h)
        subst this
        simp only [h, if_true]
      · simp [h]
    refine ⟨⟨{ existing with weight := w }, ?_, hoid, hsid, rfl⟩, ?_, ?_⟩
    · rw [hcomm, hsingle]
      simp
    · rw [assignment_ids_unique, hdb1]
      show pairwiseB _ (db.assignments.map _) = true
      rw [pairwiseB_id_map _ _ hfid]
      exact hids
    · rw [assignment_id_fresh, hdb1]
      intro a ha
      obtain ⟨b, hb, rfl⟩ := List.mem_map.mp ha
      show ((if b.id == existing.id then _ else b) : Assignment).id < _
      rw [hfid b]
      exact hfresh b hb

/-- C9. Assignment creation is idempotent per `(operator, source)` pair:
two `create_or_update` calls with the same pair and weights `w1` then `w2`
leave exactly one assignment row for the pair, and its weight is `w2`
(the latest call), provided the store satisfies the unique-id,
fresh-counter and unique-pair constraints the database enforces. -/
theorem assignment_create_or_update_idempotent (db : DB)
    (oid sid w1 w2 : Nat)
    (hids : assignment_ids_unique db)
    (hfresh : assignment_id_fresh db)
    (hpair : (pair_rows db oid sid).length ≤ 1) :
    ∃ a, pair_rows
        ((create_or_update_assignment
          ((create_or_update_assignment db oid sid w1).1)
          oid sid w2).1) oid sid = [a] ∧
      a.operator_id = oid ∧ a.source_id = sid ∧ a.weight = w2 := by
  obtain ⟨⟨a1, h1, -, -, -⟩, hids1, hfresh1⟩ :=
    create_or_update_assignment_spec db oid sid w1 hids hfresh hpair
  have hpair1 : (pair_rows (create_or_update_assignment db oid sid w1).1
      oid sid).length ≤ 1 := by
    rw [h1]
    exact Nat.le_refl 1
  obtain ⟨hex, -, -⟩ :=
    create_or_update_assignment_spec _ oid sid w2 hids1 hfresh1 hpair1
  exact hex

/-- Witness for `assignment_create_or_update_idempotent`. -/
theorem assignment_create_or_update_idempotent_witness :
    (assignment_ids_unique dbOneOp ∧ assignment_id_fresh dbOneOp ∧
      (pair_rows dbOneOp 1 1).length ≤ 1) ∧
    ∃ a, pair_rows
        ((create_or_update_assignment
          ((create_or_update_assignment dbOneOp 1 1 5).1) 1 1 7).1) 1 1 =
        [a] ∧
      a.operator_id = 1 ∧ a.source_id = 1 ∧ a.weight = 7 :=
  ⟨⟨by unfold assignment_ids_unique; decide,
    by unfold assignment_id_fresh; decide, by decide⟩,
    assignment_create_or_update_idempotent dbOneOp 1 1 5 7
      (by unfold assignment_ids_unique; decide)
      (by unfold assignment_id_fresh; decide) (by decide)⟩

/-- Store of a successful `ContactService.create` outcome. -/
def create_result_db (r : Option CreateOutcome) : Option DB :=
  match r with
  | some (.ok db _ _) => some db
  | _ => none

/-- A store with one active source and no operators, for exercising lead
resolution through `ContactService.create`. -/
def dbLeadSrc : DB := ⟨[], [⟨1, "TG", "tg", true⟩], [], [], [], 1, 1, 1⟩

/-- A creation request for lead "u1" carrying the given name. -/
def leadReq (name : Option String) : ContactCreate :=
  ⟨"u1", "tg", none, name, none, none⟩

/-- Counterexample to C4 as stated: a lead field that is already set can
be overwritten by a later creation carrying a different value. The first
`createContact` sets the lead\x27s name to the empty string (a set,
non-null value); the second, carrying "X", overwrites it, because Python
truthiness (`if name and not lead.name`) treats the stored empty string
as unset. -/
theorem lead_overwrite_counterexample :
    (create_result_db (contact_create dbLeadSrc (leadReq (some "")) 0 0)
      ).map (fun db1 => db1.leads.map Lead.name) = some [some ""] ∧
    ((create_result_db (contact_create dbLeadSrc (leadReq (some "")) 0 0)
      ).bind (fun db1 =>
        (create_result_db (contact_create db1 (leadReq (some "X")) 0 0)
          ).map (fun db2 => db2.leads.map Lead.name))) =
      some [some "X"] := by
  constructor <;> rfl

/-- If the list has no match, searching the list extended by one element
inspects only that element. -/
theorem find?_append_of_none {α : Type} (l : List α) (p : α → Bool) (x : α)
    (h : l.find? p = none) :
    (l ++ [x]).find? p = if p x then some x else none := by
  induction l with
  | nil => cases hp : p x <;> simp [List.find?, hp]
  | cons a rest ih =>
    have hall := List.find?_eq_none.mp h
    have hpa : ¬p a = true := hall a (List.mem_cons_self a rest)
    rw [List.cons_append, List.find?_cons_of_neg _ hpa]
    exact ih (List.find?_eq_none.mpr
      (fun b hb => hall b (List.mem_cons_of_mem _ hb)))

/-- Replacing the found lead by an id-keyed update with the same search
key makes `find?` return the replacement. -/
theorem find?_replace_lead (l : List Lead) (eid : String)
    (lead lead1 : Lead)
    (hids : pairwiseB (fun a b => a.id != b.id) l = true)
    (hfind : l.find? (fun x => x.external_id == eid) = some lead)
    (hid : lead1.id = lead.id)
    (hpred : (lead1.external_id == eid) = (lead.external_id == eid)) :
    (l.map (fun x => if x.id == lead.id then lead1 else x)).find?
      (fun x => x.external_id == eid) = some lead1 := by
  induction l with
  | nil => cases hfind
  | cons a rest ih =>
    simp only [pairwiseB, Bool.and_eq_true, List.all_eq_true] at hids
    obtain ⟨hall, hrest⟩ := hids
    cases hpa : (a.external_id == eid) with
    | true =>
      rw [List.find?_cons_of_pos (p := fun x : Lead => x.external_id == eid)
        _ hpa] at hfind
      cases hfind
      simp only [List.map_cons, beq_self_eq_true, if_true]
      have hp1 : (lead1.external_id == eid) = true := hpred.trans hpa
      rw [List.find?_cons_of_pos (p := fun x : Lead => x.external_id == eid)
        _ hp1]
    | false =>
      rw [List.find?_cons_of_neg (p := fun x : Lead => x.external_id == eid)
        _ (by simp [hpa])] at hfind
      have hmem := List.mem_of_find?_eq_some hfind
      have hne : (a.id == lead.id) = false := by
        have := bne_iff_ne.mp (hall lead hmem)
        simpa using this
      simp only [List.map_cons, hne, Bool.false_eq_true, if_false]
      rw [List.find?_cons_of_neg (p := fun x : Lead => x.external_id == eid)
        _ (by simp [hpa])]
      exact ih hrest hfind

/-- `get_or_create_lead` on a store whose search finds `lead` keeps the
lead id, creates nothing, and leaves every Python-truthy field intact. -/
theorem get_or_create_found (db : DB) (eid : String) (lead : Lead)
    (n p e : Option String)
    (hfind : db.leads.find? (fun x => x.external_id == eid) = some lead) :
    (get_or_create_lead db eid n p e).2.2 = false ∧
    (get_or_create_lead db eid n p e).2.1.id = lead.id ∧
    (get_or_create_lead db eid n p e).1.leads.length =
      db.leads.length ∧
    (pyTruthy lead.name = true →
      (get_or_create_lead db eid n p e).2.1.name = lead.name) ∧
    (pyTruthy lead.phone = true →
      (get_or_create_lead db eid n p e).2.1.phone = lead.phone) ∧
    (pyTruthy lead.email = true →
      (get_or_create_lead db eid n p e).2.1.email = lead.email) := by
  unfold get_or_create_lead
  rw [hfind]
  refine ⟨rfl, rfl, by simp, ?_, ?_, ?_⟩ <;> intro h <;> simp [h]

/-- After any `get_or_create_lead` call, searching the resulting store for
the same `external_id` finds exactly the lead the call returned (lead ids
are pairwise distinct, as the primary key guarantees). -/
theorem get_or_create_find_after (db : DB) (eid : String)
    (n p e : Option String)
    (hids : pairwiseB (fun a b => a.id != b.id) db.leads = true) :
    (get_or_create_lead db eid n p e).1.leads.find?
        (fun x => x.external_id == eid) =
      some (get_or_create_lead db eid n p e).2.1 := by
  cases hfind : db.leads.find? (fun x => x.external_id == eid) with
  | some lead =>
    simp only [get_or_create_lead, hfind]
    exact find?_replace_lead db.leads eid lead _ hids hfind rfl rfl
  | none =>
    simp only [get_or_create_lead, hfind]
    rw [find?_append_of_none _ _ _ hfind]
    simp

/-- The lead-resolution step of `ContactService.create`. -/
def resolved_lead_state (db : DB) (data : ContactCreate) :
    DB × Lead × Bool :=
  get_or_create_lead db data.lead_external_id data.lead_name
    data.lead_phone data.lead_email

/-- The contact row persisted by `ContactService.create`. -/
def new_contact (db1 : DB) (lead : Lead) (source : Source)
    (operator : Option Operator) (data : ContactCreate) (now : Nat) :
    Contact :=
  ⟨db1.next_contact_id, lead.id, source.id,
    operator.map (fun o => o.id), "new", data.message,
    if operator.isSome then some now else none, none⟩

/-- `ContactService.create` with an unknown source code raises
`ValueError`. -/
theorem contact_create_source_missing (db : DB) (data : ContactCreate)
    (choice now : Nat)
    (hs : get_source_by_code db data.source_code = none) :
    contact_create db data choice now =
      some (.error (source_not_found_msg data.source_code)) := by
  rw [contact_create, hs]

/-- `ContactService.create` with an inactive source raises `ValueError`. -/
theorem contact_create_source_inactive (db : DB) (data : ContactCreate)
    (choice now : Nat) (source : Source)
    (hs : get_source_by_code db data.source_code = some source)
    (hact : source.is_active = false) :
    contact_create db data choice now =
      some (.error (source_inactive_msg data.source_code)) := by
  rw [contact_create, hs]
  simp [hact]

/-- Explicit form of a successful `ContactService.create`: the lead step
runs first, the engine result decides operator and timestamp, and the
contact is appended with status "new". -/
theorem contact_create_eq_ok (db : DB) (data : ContactCreate)
    (choice now : Nat) (source : Source) (operator : Option Operator)
    (dist : String)
    (hs : get_source_by_code db data.source_code = some source)
    (hact : source.is_active = true)
    (hsel : select_operator (resolved_lead_state db data).1 source.id
      choice = some (operator, dist)) :
    contact_create db data choice now = some (.ok
      { (resolved_lead_state db data).1 with
        contacts := (resolved_lead_state db data).1.contacts ++
          [new_contact (resolved_lead_state db data).1
            (resolved_lead_state db data).2.1 source operator data now],
        next_contact_id :=
          (resolved_lead_state db data).1.next_contact_id + 1 }
      (new_contact (resolved_lead_state db data).1
        (resolved_lead_state db data).2.1 source operator data now)
      (lead_info_msg (resolved_lead_state db data).2.2 ++ "; " ++ dist)) := by
  rw [contact_create, hs]
  simp only [hact, Bool.not_true, Bool.false_eq_true, if_false]
  rw [show (get_or_create_lead db data.lead_external_id data.lead_name
    data.lead_phone data.lead_email) = resolved_lead_state db data from rfl]
  rw [hsel]
  rfl

/-- A successful `ContactService.create` never raises: its outcome is
never an error when the source is found and active. -/
theorem contact_create_no_error_when_active (db : DB)
    (data : ContactCreate) (choice now : Nat) (source : Source)
    (hs : get_source_by_code db data.source_code = some source)
    (hact : source.is_active = true) :
    ∀ msg, contact_create db data choice now ≠ some (.error msg) := by
  intro msg h
  rw [contact_create, hs] at h
  simp only [hact, Bool.not_true, Bool.false_eq_true, if_false] at h
  cases hsel : select_operator (get_or_create_lead db
      data.lead_external_id data.lead_name data.lead_phone
      data.lead_email).1 source.id choice with
  | none => rw [hsel] at h; cases h
  | some pr =>
    obtain ⟨operator, dist⟩ := pr
    rw [hsel] at h
    simp at h

/-- C4 (amended). Lead resolution is stable: `ContactService.create`
delegates lead resolution to `get_or_create_lead` and leaves the lead
table exactly as that step produced it, and two resolutions of the same
`external_id` return the same lead id with the second creating no new
lead; a lead field already set to a Python-truthy (non-empty) value is
never overwritten — only unset or empty-string fields are filled. -/
theorem lead_resolution_first_seen_wins (db : DB) (eid : String)
    (n1 p1 e1 n2 p2 e2 : Option String)
    (hids : pairwiseB (fun a b => a.id != b.id) db.leads = true) :
    (∀ data choice now db2 c info,
      contact_create db data choice now = some (.ok db2 c info) →
      db2.leads = (resolved_lead_state db data).1.leads ∧
      c.lead_id = (resolved_lead_state db data).2.1.id) ∧
    ((get_or_create_lead (get_or_create_lead db eid n1 p1 e1).1
        eid n2 p2 e2).2.2 = false ∧
     (get_or_create_lead (get_or_create_lead db eid n1 p1 e1).1
        eid n2 p2 e2).2.1.id =
       (get_or_create_lead db eid n1 p1 e1).2.1.id ∧
     (get_or_create_lead (get_or_create_lead db eid n1 p1 e1).1
        eid n2 p2 e2).1.leads.length =
       (get_or_create_lead db eid n1 p1 e1).1.leads.length ∧
     (pyTruthy (get_or_create_lead db eid n1 p1 e1).2.1.name = true →
       (get_or_create_lead (get_or_create_lead db eid n1 p1 e1).1
          eid n2 p2 e2).2.1.name =
         (get_or_create_lead db eid n1 p1 e1).2.1.name) ∧
     (pyTruthy (get_or_create_lead db eid n1 p1 e1).2.1.phone = true →
       (get_or_create_lead (get_or_create_lead db eid n1 p1 e1).1
          eid n2 p2 e2).2.1.phone =
         (get_or_create_lead db eid n1 p1 e1).2.1.phone) ∧
     (pyTruthy (get_or_create_lead db eid n1 p1 e1).2.1.email = true →
       (get_or_create_lead (get_or_create_lead db eid n1 p1 e1).1
          eid n2 p2 e2).2.1.email =
         (get_or_create_lead db eid n1 p1 e1).2.1.email)) := by
  constructor
  · intro data choice now db2 c info h
    cases hs : get_source_by_code db data.source_code with
    | none =>
      rw [contact_create_source_missing db data choice now hs] at h
      simp at h
    | some source =>
      by_cases hact : source.is_active
      · cases hsel : select_operator (resolved_lead_state db data).1
            source.id choice with
        | none =>
          rw [contact_create, hs] at h
          simp only [hact, Bool.not_true, Bool.false_eq_true,
            if_false] at h
          rw [show (get_or_create_lead db data.lead_external_id
            data.lead_name data.lead_phone data.lead_email) =
            resolved_lead_state db data from rfl, hsel] at h
          cases h
        | some pr =>
          obtain ⟨operator, dist⟩ := pr
          rw [contact_create_eq_ok db data choice now source operator
            dist hs hact hsel] at h
          have h2 := Option.some.inj h
          injection h2 with hdb hc hinfo
          subst hdb
          subst hc
          exact ⟨rfl, rfl⟩
      · have hact1 : source.is_active = false := by simpa using hact
        rw [contact_create_source_inactive db data choice now source hs
          hact1] at h
        simp at h
  · exact get_or_create_found _ eid _ n2 p2 e2
      (get_or_create_find_after db eid n1 p1 e1 hids)

/-- Witness for `lead_resolution_first_seen_wins`: a store holding one
lead with a truthy name, a later resolution carrying a different name. -/
theorem lead_resolution_first_seen_wins_witness :
    pairwiseB (fun a b => a.id != b.id)
      (DB.leads ⟨[], [⟨1, "TG", "tg", true⟩], [],
        [⟨1, "u1", some "N", none, none⟩], [], 1, 2, 1⟩) = true ∧
    ((get_or_create_lead (get_or_create_lead
        ⟨[], [⟨1, "TG", "tg", true⟩], [],
          [⟨1, "u1", some "N", none, none⟩], [], 1, 2, 1⟩
        "u1" (some "M") none none).1 "u1" (some "X") none none).2.2 =
      false ∧
     (get_or_create_lead (get_or_create_lead
        ⟨[], [⟨1, "TG", "tg", true⟩], [],
          [⟨1, "u1", some "N", none, none⟩], [], 1, 2, 1⟩
        "u1" (some "M") none none).1 "u1" (some "X") none none).2.1.name =
      some "N") :=
  ⟨by decide,
    (lead_resolution_first_seen_wins
      ⟨[], [⟨1, "TG", "tg", true⟩], [],
        [⟨1, "u1", some "N", none, none⟩], [], 1, 2, 1⟩
      "u1" (some "M") none none (some "X") none none (by decide)).2.1,
     by
      have h := (lead_resolution_first_seen_wins
        ⟨[], [⟨1, "TG", "tg", true⟩], [],
          [⟨1, "u1", some "N", none, none⟩], [], 1, 2, 1⟩
        "u1" (some "M") none none (some "X") none none
        (by decide)).2.2.2.2.1 (by decide)
      rw [h]
      decide⟩

/-- Lead resolution touches only the lead table and its counter. -/
theorem resolved_lead_state_frame (db : DB) (data : ContactCreate) :
    (resolved_lead_state db data).1.operators = db.operators ∧
    (resolved_lead_state db data).1.sources = db.sources ∧
    (resolved_lead_state db data).1.assignments = db.assignments ∧
    (resolved_lead_state db data).1.contacts = db.contacts := by
  rw [resolved_lead_state, get_or_create_lead]
  cases db.leads.find? (fun l => l.external_id == data.lead_external_id)
    with
  | none => exact ⟨rfl, rfl, rfl, rfl⟩
  | some lead => exact ⟨rfl, rfl, rfl, rfl⟩

/-- Referential integrity survives lead resolution. -/
theorem operators_present_resolved (db : DB) (data : ContactCreate)
    (h : operators_present db) :
    operators_present (resolved_lead_state db data).1 := by
  obtain ⟨hops, -, hassign, -⟩ := resolved_lead_state_frame db data
  intro a ha
  rw [hassign] at ha
  have := h a ha
  rw [find_operator, hops]
  exact this

/-- Schema-valid weights survive lead resolution. -/
theorem weights_pos_resolved (db : DB) (data : ContactCreate)
    (h : weights_pos db) :
    weights_pos (resolved_lead_state db data).1 := by
  obtain ⟨-, -, hassign, -⟩ := resolved_lead_state_frame db data
  intro a ha
  rw [hassign] at ha
  exact h a ha

/-- C7. `ContactService.create` never fails for lack of an eligible
operator: with a found and active source it persists a contact with
status "new" — operator and assigned timestamp set together or both
null/unset — and its only `ValueError` outcomes are a missing source and
an inactive source. -/
theorem contact_create_total_when_source_active (db : DB)
    (data : ContactCreate) (choice now : Nat)
    (hpres : operators_present db) (hwpos : weights_pos db) :
    (get_source_by_code db data.source_code = none →
      contact_create db data choice now =
        some (.error (source_not_found_msg data.source_code))) ∧
    (∀ source, get_source_by_code db data.source_code = some source →
      source.is_active = false →
      contact_create db data choice now =
        some (.error (source_inactive_msg data.source_code))) ∧
    (∀ source, get_source_by_code db data.source_code = some source →
      source.is_active = true →
      ∃ db2 c info, contact_create db data choice now =
          some (.ok db2 c info) ∧
        c.status = "new" ∧
        db2.contacts = (resolved_lead_state db data).1.contacts ++ [c] ∧
        ((∃ opId, c.operator_id = some opId) →
          c.assigned_at = some now) ∧
        (c.operator_id = none → c.assigned_at = none)) ∧
    (∀ msg, contact_create db data choice now = some (.error msg) →
      get_source_by_code db data.source_code = none ∨
      ∃ source, get_source_by_code db data.source_code = some source ∧
        source.is_active = false) := by
  refine ⟨contact_create_source_missing db data choice now,
    fun source hs hact =>
      contact_create_source_inactive db data choice now source hs hact,
    ?_, ?_⟩
  · intro source hs hact
    obtain ⟨res, hsel, -⟩ := select_operator_three_branches
      (resolved_lead_state db data).1 source.id choice
      (operators_present_resolved db data hpres)
      (weights_pos_resolved db data hwpos)
    obtain ⟨operator, dist⟩ := res
    refine ⟨_, _, _,
      contact_create_eq_ok db data choice now source operator dist hs
        hact hsel, rfl, rfl, ?_, ?_⟩
    · rintro ⟨opId, hop⟩
      cases operator with
      | none => cases hop
      | some o => rfl
    · intro hop
      cases operator with
      | none => rfl
      | some o => cases hop
  · intro msg h
    cases hs : get_source_by_code db data.source_code with
    | none => exact Or.inl rfl
    | some source =>
      by_cases hact : source.is_active
      · exact absurd h
          (contact_create_no_error_when_active db data choice now source
            hs hact msg)
      · exact Or.inr ⟨source, rfl, by simpa using hact⟩

/-- A creation request against source code "tg" for lead "u9". -/
def reqTg : ContactCreate := ⟨"u9", "tg", none, none, none, none⟩

/-- Witness for `contact_create_total_when_source_active`. -/
theorem contact_create_total_when_source_active_witness :
    (operators_present dbOneOp ∧ weights_pos dbOneOp) ∧
    ((get_source_by_code dbOneOp reqTg.source_code = none →
      contact_create dbOneOp reqTg 0 7 =
        some (.error (source_not_found_msg reqTg.source_code))) ∧
    (∀ source, get_source_by_code dbOneOp reqTg.source_code =
        some source → source.is_active = false →
      contact_create dbOneOp reqTg 0 7 =
        some (.error (source_inactive_msg reqTg.source_code))) ∧
    (∀ source, get_source_by_code dbOneOp reqTg.source_code =
        some source → source.is_active = true →
      ∃ db2 c info, contact_create dbOneOp reqTg 0 7 =
          some (.ok db2 c info) ∧
        c.status = "new" ∧
        db2.contacts =
          (resolved_lead_state dbOneOp reqTg).1.contacts ++ [c] ∧
        ((∃ opId, c.operator_id = some opId) →
          c.assigned_at = some 7) ∧
        (c.operator_id = none → c.assigned_at = none)) ∧
    (∀ msg, contact_create dbOneOp reqTg 0 7 = some (.error msg) →
      get_source_by_code dbOneOp reqTg.source_code = none ∨
      ∃ source, get_source_by_code dbOneOp reqTg.source_code =
          some source ∧ source.is_active = false)) :=
  ⟨⟨by unfold operators_present; decide, by unfold weights_pos; decide⟩,
    contact_create_total_when_source_active dbOneOp reqTg 0 7
      (by unfold operators_present; decide)
      (by unfold weights_pos; decide)⟩

/-- C5. `ContactService.reassign` fails on a missing contact and on a
closed contact, leaving the store untouched in both cases; on any
existing non-closed contact it re-runs the distribution engine for the
contact\x27s own source and overwrites both `operator_id` and
`assigned_at`, which become null/unset exactly when no operator was
selected. -/
theorem contact_reassign_spec (db : DB) (cid choice now : Nat)
    (hpres : operators_present db) (hwpos : weights_pos db) :
    (get_contact_by_id db cid = none →
      contact_reassign db cid choice now =
        some (db, none, contact_not_found_msg)) ∧
    (∀ c, get_contact_by_id db cid = some c → c.status = "closed" →
      contact_reassign db cid choice now =
        some (db, none, closed_contact_msg)) ∧
    (∀ c, get_contact_by_id db cid = some c → c.status ≠ "closed" →
      ∃ operator info,
        select_operator db c.source_id choice = some (operator, info) ∧
        contact_reassign db cid choice now = some
          ({ db with contacts := db.contacts.map (fun x =>
              if x.id == c.id then
                { c with operator_id := operator.map (fun o => o.id),
                         assigned_at := if operator.isSome then some now
                                        else none }
              else x) },
           some { c with operator_id := operator.map (fun o => o.id),
                         assigned_at := if operator.isSome then some now
                                        else none },
           info)) := by
  refine ⟨?_, ?_, ?_⟩
  · intro h
    rw [contact_reassign, h]
  · intro c hc hclosed
    rw [contact_reassign, hc]
    simp [hclosed]
  · intro c hc hopen
    obtain ⟨res, hsel, -⟩ := select_operator_three_branches db
      c.source_id choice hpres hwpos
    obtain ⟨operator, info⟩ := res
    refine ⟨operator, info, hsel, ?_⟩
    rw [contact_reassign, hc]
    have hbeq : (c.status == "closed") = false := by
      simpa using hopen
    simp only [hbeq, Bool.false_eq_true, if_false]
    rw [hsel]

/-- A store holding one open and one closed contact. -/
def dbContacts : DB :=
  ⟨[⟨1, "A", true, 2⟩], [⟨1, "TG", "tg", true⟩], [⟨1, 1, 1, 3⟩],
    [⟨1, "u1", none, none, none⟩],
    [⟨1, 1, 1, none, "new", none, none, none⟩,
     ⟨2, 1, 1, none, "closed", none, none, some 0⟩], 2, 2, 3⟩

/-- Witness for `contact_reassign_spec`: reassigning the closed contact
of `dbContacts` fails and leaves the store unchanged. -/
theorem contact_reassign_spec_witness :
    (operators_present dbContacts ∧ weights_pos dbContacts) ∧
    ((get_contact_by_id dbContacts 9 = none →
      contact_reassign dbContacts 9 0 5 =
        some (dbContacts, none, contact_not_found_msg)) ∧
    (∀ c, get_contact_by_id dbContacts 9 = some c →
      c.status = "closed" →
      contact_reassign dbContacts 9 0 5 =
        some (dbContacts, none, closed_contact_msg)) ∧
    (∀ c, get_contact_by_id dbContacts 9 = some c →
      c.status ≠ "closed" →
      ∃ operator info,
        select_operator dbContacts c.source_id 0 =
          some (operator, info) ∧
        contact_reassign dbContacts 9 0 5 = some
          ({ dbContacts with contacts := dbContacts.contacts.map (fun x =>
              if x.id == c.id then
                { c with operator_id := operator.map (fun o => o.id),
                         assigned_at := if operator.isSome then some 5
                                        else none }
              else x) },
           some { c with operator_id := operator.map (fun o => o.id),
                         assigned_at := if operator.isSome then some 5
                                        else none },
           info))) :=
  ⟨⟨by unfold operators_present; decide, by unfold weights_pos; decide⟩,
    contact_reassign_spec dbContacts 9 0 5
      (by unfold operators_present; decide)
      (by unfold weights_pos; decide)⟩

/-- Counterexample to C6 as stated: `ContactService.update_status`
performs no transition validation, so a single `updateContactStatus`
call moves a closed contact straight back to status "new". -/
theorem closed_status_reopened_counterexample :
    (get_contact_by_id dbContacts 2).map Contact.status =
      some "closed" ∧
    (update_status dbContacts 2 "new" 5).map
      (fun r => r.2.status) = some "new" := by
  constructor <;> rfl

/-- C6 (amended). `update_status` applies any requested status with no
transition validation: for every existing contact it sets exactly the
requested status (so "closed" is not terminal — a later call can move a
closed contact back to "new" or "in_progress"), stamping `closed_at`
when the new status is "closed" and touching nothing else; a missing
contact yields the not-found result. -/
theorem update_status_applies_any_status (db : DB) (cid : Nat)
    (s : String) (now : Nat) :
    (get_contact_by_id db cid = none →
      update_status db cid s now = none) ∧
    (∀ c, get_contact_by_id db cid = some c →
      ∃ c1, update_status db cid s now = some
          ({ db with contacts := db.contacts.map (fun x =>
              if x.id == c.id then c1 else x) }, c1) ∧
        c1.status = s ∧
        c1.closed_at = (if s == "closed" then some now else c.closed_at) ∧
        c1.operator_id = c.operator_id ∧
        c1.assigned_at = c.assigned_at ∧
        c1.id = c.id) := by
  constructor
  · intro h
    rw [update_status, h]
  · intro c hc
    refine ⟨{ c with
        status := s,
        closed_at := if s == "closed" then some now else c.closed_at },
      ?_, rfl, rfl, rfl, rfl, rfl⟩
    rw [update_status, hc]

/-- Witness for `update_status_applies_any_status`: reopening the closed
contact of `dbContacts`. -/
theorem update_status_applies_any_status_witness :
    get_contact_by_id dbContacts 2 =
      some ⟨2, 1, 1, none, "closed", none, none, some 0⟩ ∧
    ∃ c1, update_status dbContacts 2 "new" 5 = some
        ({ dbContacts with contacts := dbContacts.contacts.map (fun x =>
            if x.id == (⟨2, 1, 1, none, "closed", none, none, some 0⟩ :
              Contact).id then c1 else x) }, c1) ∧
      c1.status = "new" ∧
      c1.closed_at = (if "new" == "closed" then some 5
        else (⟨2, 1, 1, none, "closed", none, none, some 0⟩ :
          Contact).closed_at) ∧
      c1.operator_id = (⟨2, 1, 1, none, "closed", none, none, some 0⟩ :
        Contact).operator_id ∧
      c1.assigned_at = (⟨2, 1, 1, none, "closed", none, none, some 0⟩ :
        Contact).assigned_at ∧
      c1.id = (⟨2, 1, 1, none, "closed", none, none, some 0⟩ :
        Contact).id :=
  ⟨by decide,
    (update_status_applies_any_status dbContacts 2 "new" 5).2
      ⟨2, 1, 1, none, "closed", none, none, some 0⟩ (by decide)⟩

/-- The eligibility/workload predicate of `get_active_contacts_count`
agrees with the spec-side proposition "operator matches and status is new
or in_progress". -/
theorem active_pred_eq (oid : Nat) (c : Contact) :
    (c.operator_id == some oid &&
      (c.status == "new" || c.status == "in_progress")) =
    decide (c.operator_id = some oid ∧
      (c.status = "new" ∨ c.status = "in_progress")) := by
  rw [Bool.eq_iff_iff]
  simp [Bool.and_eq_true, Bool.or_eq_true]

/-- Appending one contact changes the active count by one exactly when
the new contact is active for the operator. -/
theorem active_filter_append (l : List Contact) (c : Contact)
    (oid : Nat) :
    ((l ++ [c]).filter (fun x => x.operator_id == some oid &&
      (x.status == "new" || x.status == "in_progress"))).length =
    (l.filter (fun x => x.operator_id == some oid &&
      (x.status == "new" || x.status == "in_progress"))).length +
    (if (c.operator_id == some oid &&
      (c.status == "new" || c.status == "in_progress")) = true
     then 1 else 0) := by
  rw [List.filter_append, List.length_append]
  cases h : (c.operator_id == some oid &&
      (c.status == "new" || c.status == "in_progress")) <;>
    simp [List.filter, h]

/-- `n` consecutive `ContactService.create` calls with the same request,
threading the store; `choices k` is the randomness of the `k`-th call.
`none` as soon as one call errors or crashes. -/
def create_n (data : ContactCreate) (now : Nat) (choices : Nat → Nat) :
    Nat → DB → Option DB
  | 0, db => some db
  | k + 1, db =>
    match create_n data now choices k db with
    | none => none
    | some dbk =>
      match contact_create dbk data (choices k) now with
      | some (.ok db1 _ _) => some db1
      | _ => none

/-- One creation step in the single-operator scenario: with one active
operator of capacity `C` solely assigned to the active source and a
current load of `min k C`, the `k`-th creation succeeds, assigns the
operator exactly when `k < C`, and moves the load to `min (k+1) C`. -/
theorem scenario_step (op : Operator) (src : Source) (a : Assignment)
    (data : ContactCreate) (choice now k : Nat) (db : DB)
    (h_act : op.is_active = true) (h_sact : src.is_active = true)
    (h_aop : a.operator_id = op.id) (h_asrc : a.source_id = src.id)
    (h_w : 1 ≤ a.weight) (h_code : data.source_code = src.code)
    (h_ops : db.operators = [op]) (h_srcs : db.sources = [src])
    (h_assign : db.assignments = [a])
    (h_load : get_active_contacts_count db op.id =
      min k op.max_active_contacts) :
    ∃ db1 c info,
      contact_create db data choice now = some (.ok db1 c info) ∧
      c.operator_id =
        (if k < op.max_active_contacts then some op.id else none) ∧
      db1.operators = [op] ∧ db1.sources = [src] ∧
      db1.assignments = [a] ∧
      get_active_contacts_count db1 op.id =
        min (k + 1) op.max_active_contacts := by
  obtain ⟨hops1, hsrcs1, hassign1, hcontacts1⟩ :=
    resolved_lead_state_frame db data
  have hs : get_source_by_code db data.source_code = some src := by
    rw [get_source_by_code, h_srcs, h_code]
    simp [List.find?]
  have hload1 : get_active_contacts_count (resolved_lead_state db data).1
      op.id = min k op.max_active_contacts := by
    rw [get_active_contacts_count, hcontacts1, ← h_load,
      get_active_contacts_count]
  have hsa : source_assignments (resolved_lead_state db data).1 src.id =
      [a] := by
    rw [source_assignments, hassign1, h_assign]
    simp [h_asrc]
  have hfo : find_operator (resolved_lead_state db data).1 a.operator_id =
      some op := by
    rw [find_operator, hops1, h_ops, h_aop]
    simp [List.find?]
  by_cases hk : k < op.max_active_contacts
  · have hmin : min k op.max_active_contacts = k :=
      Nat.min_eq_left (Nat.le_of_lt hk)
    have hcap : ¬(op.max_active_contacts ≤
        get_active_contacts_count (resolved_lead_state db data).1 op.id) := by
      rw [hload1, hmin]
      exact Nat.not_le_of_lt hk
    have hfa : filter_assignments (resolved_lead_state db data).1 [a] =
        some ([⟨op, a.weight,
          get_active_contacts_count (resolved_lead_state db data).1
            op.id⟩], []) := by
      rw [filter_assignments, hfo, filter_assignments]
      simp [h_act, hcap]
    obtain ⟨selected, hmem, hres⟩ := select_operator_success
      (resolved_lead_state db data).1 src.id choice
      [⟨op, a.weight, get_active_contacts_count
        (resolved_lead_state db data).1 op.id⟩] []
      (by rw [hsa]; simp) (by rw [hsa]; exact hfa) (by simp)
      (by
        intro x hx
        cases List.mem_singleton.mp hx
        exact h_w)
    have hselop : selected = op := by
      rw [weighted_choices] at hmem
      simp only [List.map_cons, List.map_nil, List.flatten_cons,
        List.flatten_nil, List.append_nil] at hmem
      exact List.eq_of_mem_replicate hmem
    rw [hselop] at hres
    refine ⟨_, _, _, contact_create_eq_ok db data choice now src
      (some op) _ hs h_sact hres, ?_, ?_, ?_, ?_, ?_⟩
    · simp [new_contact, hk]
    · exact hops1.trans h_ops
    · exact hsrcs1.trans h_srcs
    · exact hassign1.trans h_assign
    · show ((((resolved_lead_state db data).1.contacts ++
        [new_contact (resolved_lead_state db data).1
          (resolved_lead_state db data).2.1 src (some op) data
          now]).filter (fun x => x.operator_id == some op.id &&
            (x.status == "new" || x.status == "in_progress"))).length) =
        min (k + 1) op.max_active_contacts
      rw [active_filter_append]
      have hc : ((new_contact (resolved_lead_state db data).1
          (resolved_lead_state db data).2.1 src (some op) data
          now).operator_id == some op.id &&
          ((new_contact (resolved_lead_state db data).1
            (resolved_lead_state db data).2.1 src (some op) data
            now).status == "new" ||
           (new_contact (resolved_lead_state db data).1
            (resolved_lead_state db data).2.1 src (some op) data
            now).status == "in_progress")) = true := by
        simp [new_contact]
      rw [hc]
      have : (((resolved_lead_state db data).1.contacts).filter
          (fun x => x.operator_id == some op.id &&
            (x.status == "new" || x.status == "in_progress"))).length =
          min k op.max_active_contacts := hload1
      rw [this, if_pos rfl, hmin]
      have hk1 : k + 1 ≤ op.max_active_contacts := hk
      rw [Nat.min_eq_left hk1]
  · have hmin : min k op.max_active_contacts = op.max_active_contacts :=
      Nat.min_eq_right (Nat.le_of_not_lt hk)
    have hcap : op.max_active_contacts ≤
        get_active_contacts_count (resolved_lead_state db data).1
          op.id := by
      rw [hload1, hmin]
    have hfa : filter_assignments (resolved_lead_state db data).1 [a] =
        some ([], [capacity_reason op
          (get_active_contacts_count (resolved_lead_state db data).1
            op.id)]) := by
      rw [filter_assignments, hfo, filter_assignments]
      simp [h_act, hcap]
    have hres := select_operator_none_eligible
      (resolved_lead_state db data).1 src.id choice _
      (by rw [hsa]; simp) (by rw [hsa]; exact hfa)
    refine ⟨_, _, _, contact_create_eq_ok db data choice now src
      none _ hs h_sact hres, ?_, ?_, ?_, ?_, ?_⟩
    · simp [new_contact, hk]
    · exact hops1.trans h_ops
    · exact hsrcs1.trans h_srcs
    · exact hassign1.trans h_assign
    · show ((((resolved_lead_state db data).1.contacts ++
        [new_contact (resolved_lead_state db data).1
          (resolved_lead_state db data).2.1 src none data
          now]).filter (fun x => x.operator_id == some op.id &&
            (x.status == "new" || x.status == "in_progress"))).length) =
        min (k + 1) op.max_active_contacts
      rw [active_filter_append]
      have hc : ((new_contact (resolved_lead_state db data).1
          (resolved_lead_state db data).2.1 src none data
          now).operator_id == some op.id &&
          ((new_contact (resolved_lead_state db data).1
            (resolved_lead_state db data).2.1 src none data
            now).status == "new" ||
           (new_contact (resolved_lead_state db data).1
            (resolved_lead_state db data).2.1 src none data
            now).status == "in_progress")) = false := by
        simp [new_contact]
      rw [hc]
      have : (((resolved_lead_state db data).1.contacts).filter
          (fun x => x.operator_id == some op.id &&
            (x.status == "new" || x.status == "in_progress"))).length =
          min k op.max_active_contacts := hload1
      rw [this, hmin]
      simp
      omega

/-- C3. The workload count is always the live count of the operator\x27s
contacts with status in {new, in_progress}; and in the single-threaded
scenario of one active operator with capacity `C` solely assigned to an
active source, starting from no contacts, the `k`-th creation (0-based)
assigns the operator exactly when `k < C` — so the first `C` creations
carry the operator and the `(C+1)`-th yields operator = null — while the
load after `k` creations is `min k C`. -/
theorem workload_live_and_capacity_enforced (db0 : DB) (op : Operator)
    (src : Source) (a : Assignment) (data : ContactCreate) (now : Nat)
    (choices : Nat → Nat)
    (h_act : op.is_active = true) (h_sact : src.is_active = true)
    (h_aop : a.operator_id = op.id) (h_asrc : a.source_id = src.id)
    (h_w : 1 ≤ a.weight) (h_code : data.source_code = src.code)
    (h_ops : db0.operators = [op]) (h_srcs : db0.sources = [src])
    (h_assign : db0.assignments = [a]) (h_contacts : db0.contacts = []) :
    (∀ db oid, get_active_contacts_count db oid =
      db.contacts.countP (fun c => decide (c.operator_id = some oid ∧
        (c.status = "new" ∨ c.status = "in_progress")))) ∧
    (∀ k, ∃ dbk, create_n data now choices k db0 = some dbk ∧
      get_active_contacts_count dbk op.id =
        min k op.max_active_contacts ∧
      ∃ db1 c info,
        contact_create dbk data (choices k) now = some (.ok db1 c info) ∧
        c.operator_id =
          (if k < op.max_active_contacts then some op.id else none)) := by
  have haux : ∀ k, ∃ dbk, create_n data now choices k db0 = some dbk ∧
      dbk.operators = [op] ∧ dbk.sources = [src] ∧
      dbk.assignments = [a] ∧
      get_active_contacts_count dbk op.id =
        min k op.max_active_contacts := by
    intro k
    induction k with
    | zero =>
      refine ⟨db0, rfl, h_ops, h_srcs, h_assign, ?_⟩
      rw [get_active_contacts_count, h_contacts]
      simp
    | succ k ih =>
      obtain ⟨dbk, hck, ho, hs2, ha2, hl⟩ := ih
      obtain ⟨db1, c, info, hcreate, hcop, ho1, hs1, ha1, hl1⟩ :=
        scenario_step op src a data (choices k) now k dbk h_act h_sact
          h_aop h_asrc h_w h_code ho hs2 ha2 hl
      refine ⟨db1, ?_, ho1, hs1, ha1, hl1⟩
      rw [create_n, hck]
      simp only [hcreate]
  constructor
  · intro db oid
    rw [get_active_contacts_count, List.countP_eq_length_filter]
    exact congrArg List.length
      (List.filter_congr (fun c _ => active_pred_eq oid c))
  · intro k
    obtain ⟨dbk, hck, ho, hs2, ha2, hl⟩ := haux k
    obtain ⟨db1, c, info, hcreate, hcop, -, -, -, -⟩ :=
      scenario_step op src a data (choices k) now k dbk h_act h_sact
        h_aop h_asrc h_w h_code ho hs2 ha2 hl
    exact ⟨dbk, hck, hl, db1, c, info, hcreate, hcop⟩

/-- Witness for `workload_live_and_capacity_enforced` at the concrete
store `dbOneOp` (capacity 2, weight 3). -/
theorem workload_live_and_capacity_enforced_witness :
    ((⟨1, "A", true, 2⟩ : Operator).is_active = true ∧
     dbOneOp.operators = [⟨1, "A", true, 2⟩] ∧
     dbOneOp.contacts = []) ∧
    ((∀ db oid, get_active_contacts_count db oid =
      db.contacts.countP (fun c => decide (c.operator_id = some oid ∧
        (c.status = "new" ∨ c.status = "in_progress")))) ∧
    (∀ k, ∃ dbk,
      create_n reqTg 7 (fun _ => 0) k dbOneOp = some dbk ∧
      get_active_contacts_count dbk (⟨1, "A", true, 2⟩ : Operator).id =
        min k (⟨1, "A", true, 2⟩ : Operator).max_active_contacts ∧
      ∃ db1 c info,
        contact_create dbk reqTg 0 7 = some (.ok db1 c info) ∧
        c.operator_id =
          (if k < (⟨1, "A", true, 2⟩ : Operator).max_active_contacts
           then some (⟨1, "A", true, 2⟩ : Operator).id else none))) :=
  ⟨⟨rfl, rfl, rfl⟩,
    workload_live_and_capacity_enforced dbOneOp ⟨1, "A", true, 2⟩
      ⟨1, "TG", "tg", true⟩ ⟨1, 1, 1, 3⟩ reqTg 7 (fun _ => 0)
      rfl rfl rfl rfl (by decide) rfl rfl rfl rfl rfl⟩
